import Mathlib

/-!
Verification of the eeg-alpha acquisition-core design.

The repository consists of a BrainFlow tutorial script
(src/examples/01_hello_brainflow.py) and a Manim animation
(src/animations/dipole_model.py).  The design document specifies a
bounded multi-channel ring buffer with session lifecycle control
(SampleFrame, RingBuffer, AcquisitionSession, SessionRegistry); that
core is not present under src/, so it is modelled here from the
design document.  The two scripts under src/ are embedded directly.
-/

namespace EEGAlpha

/-- Modelled from the spec: `SampleFrame` is a value type holding one
timestamped vector of per-channel readings plus a monotonically
increasing sequence number (spec §3).  The RingBuffer itself is missing
from src/; only the design document describes it. -/
structure SampleFrame where
  timestamp : ℚ
  seq : ℕ
  channels : List ℚ
  deriving DecidableEq

/-- Modelled from the spec: the error taxonomy of §7. -/
inductive ErrorKind where
  | invalidCapacity
  | channelCountMismatch
  | prepareFailed
  | alreadyStreaming
  | notPrepared
  | invalidTransition
  | notStreaming
  | sessionReleased
  | deviceBusy
  | notFound
  deriving DecidableEq

/-- Modelled from the spec: `RingBuffer` state (§3): capacity C fixed at
construction, a backing store of C slots, a write cursor, a read cursor,
a count of unread frames and a drop counter. -/
structure RingBuffer where
  capacity : ℕ
  channelCount : ℕ
  slots : List (Option SampleFrame)
  writeCursor : ℕ
  readCursor : ℕ
  count : ℕ
  dropped : ℕ
  deriving DecidableEq

/-- Modelled from the spec: construction of a RingBuffer; capacity must be
at least 1, otherwise construction fails with `InvalidCapacity` (§4.1
edge cases). -/
def RingBuffer.make (cap ch : ℕ) : Except ErrorKind RingBuffer :=
  if cap < 1 then .error .invalidCapacity
  else .ok ⟨cap, ch, List.replicate cap none, 0, 0, 0, 0⟩

/-- Modelled from the spec: `push(frame)` (§4.1 and §3 invariant).  A frame
whose channel count mismatches the declared channel count is rejected
with `ChannelCountMismatch`: not stored, drop counter incremented.  An
accepted frame is written at the write cursor, which advances by one
modulo C; when `count == C` the slot at the read cursor is overwritten,
the read cursor advances and the drop counter increments
(oldest-data-dropped policy). -/
def RingBuffer.push (b : RingBuffer) (f : SampleFrame) : RingBuffer × Option ErrorKind :=
  if f.channels.length ≠ b.channelCount then
    ({ b with dropped := b.dropped + 1 }, some .channelCountMismatch)
  else if b.count = b.capacity then
    ({ b with slots := b.slots.set b.writeCursor (some f),
              writeCursor := (b.writeCursor + 1) % b.capacity,
              readCursor := (b.readCursor + 1) % b.capacity,
              dropped := b.dropped + 1 }, none)
  else
    ({ b with slots := b.slots.set b.writeCursor (some f),
              writeCursor := (b.writeCursor + 1) % b.capacity,
              count := b.count + 1 }, none)

/-- Slot contents at logical offset `i` from the read cursor. -/
def RingBuffer.slotAt (b : RingBuffer) (i : ℕ) : Option SampleFrame :=
  b.slots.getD ((b.readCursor + i) % b.capacity) none

/-- The first `n` logical slots starting at the read cursor. -/
def RingBuffer.readOpt (b : RingBuffer) (n : ℕ) : List (Option SampleFrame) :=
  (List.range n).map b.slotAt

/-- Modelled from the spec: number of frames a `drain(max_n)`/`peek(max_n)`
call returns: up to `max_n` unread frames, or all unread frames if
`max_n` is zero/unspecified (§4.1). -/
def RingBuffer.effCount (b : RingBuffer) (maxN : ℕ) : ℕ :=
  if maxN = 0 then b.count else min maxN b.count

/-- Modelled from the spec: `peek(max_n)` is like `drain` but
non-destructive: it does not advance the read cursor and leaves the
buffer unchanged (§4.1). -/
def RingBuffer.peek (b : RingBuffer) (maxN : ℕ) : List SampleFrame × RingBuffer :=
  ((b.readOpt (b.effCount maxN)).filterMap id, b)

/-- Modelled from the spec: `drain(max_n)` returns up to `max_n` unread
frames in FIFO order (all unread frames when `max_n` is zero), removing
them from the buffer by advancing the read cursor (§4.1). -/
def RingBuffer.drain (b : RingBuffer) (maxN : ℕ) : List SampleFrame × RingBuffer :=
  ((b.readOpt (b.effCount maxN)).filterMap id,
   { b with readCursor := (b.readCursor + b.effCount maxN) % b.capacity,
            count := b.count - b.effCount maxN })

/-- Modelled from the spec: `unread_count()` introspection (§4.1). -/
def RingBuffer.unread_count (b : RingBuffer) : ℕ := b.count

/-- Modelled from the spec: `dropped_count()` introspection (§4.1). -/
def RingBuffer.dropped_count (b : RingBuffer) : ℕ := b.dropped

/-- A sequence of pushes, in order (producer side). -/
def RingBuffer.pushAll (b : RingBuffer) (fs : List SampleFrame) : RingBuffer :=
  fs.foldl (fun acc f => (acc.push f).1) b

/-- Well-formedness of a RingBuffer state, following the §3 invariant:
the backing store has exactly `capacity` slots, capacity is at least 1,
the read cursor is in range, the write cursor sits `count` slots past the
read cursor modulo capacity, and at most `capacity` frames are unread. -/
def RingBuffer.WF (b : RingBuffer) : Prop :=
  b.slots.length = b.capacity ∧ 1 ≤ b.capacity ∧ b.readCursor < b.capacity ∧
  b.writeCursor = (b.readCursor + b.count) % b.capacity ∧ b.count ≤ b.capacity

theorem RingBuffer.length_readOpt (b : RingBuffer) (n : ℕ) : (b.readOpt n).length = n := by
  simp [RingBuffer.readOpt]

theorem RingBuffer.getElem_readOpt (b : RingBuffer) {n i : ℕ} (h : i < (b.readOpt n).length) :
    (b.readOpt n)[i] = b.slots.getD ((b.readCursor + i) % b.capacity) none := by
  simp only [RingBuffer.readOpt, List.getElem_map, List.getElem_range]
  rfl

theorem offset_mod_inj {cap r i j : ℕ} (hi : i < cap) (hj : j < cap)
    (h : (r + i) % cap = (r + j) % cap) : i = j := by
  have h2 : Nat.ModEq cap i j := Nat.ModEq.add_left_cancel' r h
  have h3 : i % cap = j % cap := h2
  rwa [Nat.mod_eq_of_lt hi, Nat.mod_eq_of_lt hj] at h3

theorem RingBuffer.push_not_full (b : RingBuffer) (f : SampleFrame)
    (hwf : b.WF) (hch : f.channels.length = b.channelCount) (hlt : b.count < b.capacity) :
    (b.push f).1.WF ∧
    (b.push f).1.capacity = b.capacity ∧
    (b.push f).1.channelCount = b.channelCount ∧
    (b.push f).1.count = b.count + 1 ∧
    (b.push f).1.dropped = b.dropped ∧
    (b.push f).1.readOpt (b.count + 1) = b.readOpt b.count ++ [some f] := by
  obtain ⟨hlen, hcap, hr, hw, hcnt⟩ := hwf
  have hfull : ¬ b.count = b.capacity := Nat.ne_of_lt hlt
  have hp : (b.push f).1 =
      ({ b with slots := b.slots.set b.writeCursor (some f),
                writeCursor := (b.writeCursor + 1) % b.capacity,
                count := b.count + 1 }) := by
    simp [RingBuffer.push, hch, hfull]
  have hslots : (b.push f).1.slots = b.slots.set b.writeCursor (some f) := by rw [hp]
  have hwc : (b.push f).1.writeCursor = (b.writeCursor + 1) % b.capacity := by rw [hp]
  have hrc : (b.push f).1.readCursor = b.readCursor := by rw [hp]
  have hcap1 : (b.push f).1.capacity = b.capacity := by rw [hp]
  have hch1 : (b.push f).1.channelCount = b.channelCount := by rw [hp]
  have hcnt1 : (b.push f).1.count = b.count + 1 := by rw [hp]
  have hdr1 : (b.push f).1.dropped = b.dropped := by rw [hp]
  have hwlt : b.writeCursor < b.slots.length := by
    rw [hlen, hw]; exact Nat.mod_lt _ (by omega)
  have hslot : ∀ i, (b.push f).1.slotAt i =
      (b.slots.set b.writeCursor (some f)).getD ((b.readCursor + i) % b.capacity) none := by
    intro i
    rw [RingBuffer.slotAt, hslots, hrc, hcap1]
  refine ⟨⟨?_, ?_, ?_, ?_, ?_⟩, hcap1, hch1, hcnt1, hdr1, ?_⟩
  · rw [hslots, hcap1, List.length_set, hlen]
  · rw [hcap1]; exact hcap
  · rw [hrc, hcap1]; exact hr
  · rw [hwc, hrc, hcap1, hcnt1, hw, Nat.mod_add_mod, Nat.add_assoc]
  · rw [hcnt1, hcap1]; omega
  · rw [RingBuffer.readOpt, RingBuffer.readOpt, List.range_succ, List.map_append]
    have hmain : (List.range b.count).map (b.push f).1.slotAt =
        (List.range b.count).map b.slotAt := by
      refine List.map_congr_left ?_
      intro i hi
      have hilt : i < b.count := List.mem_range.mp hi
      rw [hslot i, RingBuffer.slotAt]
      have hne2 : b.writeCursor ≠ (b.readCursor + i) % b.capacity := by
        rw [hw]
        intro hcontra
        have := offset_mod_inj (by omega) (by omega) hcontra
        omega
      rw [List.getD_eq_getElem?_getD, List.getD_eq_getElem?_getD,
        List.getElem?_set_ne hne2]
    have hlast : (b.push f).1.slotAt b.count = some f := by
      rw [hslot b.count, ← hw, List.getD_eq_getElem?_getD, List.getElem?_set_self hwlt]
      rfl
    rw [hmain]
    simp [hlast]

theorem RingBuffer.push_full (b : RingBuffer) (f : SampleFrame)
    (hwf : b.WF) (hch : f.channels.length = b.channelCount) (heq : b.count = b.capacity) :
    (b.push f).1.WF ∧
    (b.push f).1.capacity = b.capacity ∧
    (b.push f).1.channelCount = b.channelCount ∧
    (b.push f).1.count = b.capacity ∧
    (b.push f).1.dropped = b.dropped + 1 ∧
    (b.push f).1.readOpt b.capacity = (b.readOpt b.count).drop 1 ++ [some f] := by
  obtain ⟨hlen, hcap, hr, hw, hcnt⟩ := hwf
  have hwr : b.writeCursor = b.readCursor := by
    rw [hw, heq, Nat.add_mod_right, Nat.mod_eq_of_lt hr]
  have hp : (b.push f).1 =
      ({ b with slots := b.slots.set b.writeCursor (some f),
                writeCursor := (b.writeCursor + 1) % b.capacity,
                readCursor := (b.readCursor + 1) % b.capacity,
                dropped := b.dropped + 1 }) := by
    simp [RingBuffer.push, hch, heq]
  have hslots : (b.push f).1.slots = b.slots.set b.readCursor (some f) := by rw [hp, hwr]
  have hwc : (b.push f).1.writeCursor = (b.writeCursor + 1) % b.capacity := by rw [hp]
  have hrc : (b.push f).1.readCursor = (b.readCursor + 1) % b.capacity := by rw [hp]
  have hcap1 : (b.push f).1.capacity = b.capacity := by rw [hp]
  have hch1 : (b.push f).1.channelCount = b.channelCount := by rw [hp]
  have hcnt1 : (b.push f).1.count = b.count := by rw [hp]
  have hdr1 : (b.push f).1.dropped = b.dropped + 1 := by rw [hp]
  have hrlt : b.readCursor < b.slots.length := by rw [hlen]; exact hr
  have hslot : ∀ i, (b.push f).1.slotAt i =
      (b.slots.set b.readCursor (some f)).getD ((b.readCursor + 1 + i) % b.capacity) none := by
    intro i
    rw [RingBuffer.slotAt, hslots, hrc, hcap1, Nat.mod_add_mod]
  refine ⟨⟨?_, ?_, ?_, ?_, ?_⟩, hcap1, hch1, by rw [hcnt1, heq], hdr1, ?_⟩
  · rw [hslots, hcap1, List.length_set, hlen]
  · rw [hcap1]; exact hcap
  · rw [hrc, hcap1]; exact Nat.mod_lt _ (by omega)
  · rw [hwc, hrc, hcap1, hcnt1, hwr, heq, Nat.mod_add_mod, Nat.add_mod_right]
  · rw [hcnt1, hcap1]; exact hcnt
  · refine List.ext_getElem ?_ ?_
    · rw [RingBuffer.length_readOpt, List.length_append, List.length_drop,
        RingBuffer.length_readOpt, List.length_singleton]
      omega
    · intro j hj1 hj2
      have hjcap : j < b.capacity := by
        rw [RingBuffer.length_readOpt] at hj1
        exact hj1
      rw [RingBuffer.getElem_readOpt, hslots, hrc, hcap1, Nat.mod_add_mod]
      rcases Nat.lt_or_ge j (b.capacity - 1) with hsmall | hbig
      · have hne2 : b.readCursor ≠ (b.readCursor + 1 + j) % b.capacity := by
          intro hcontra
          have hr0 : (b.readCursor + 0) % b.capacity = b.readCursor := by
            rw [Nat.add_zero, Nat.mod_eq_of_lt hr]
          have hc2 : (b.readCursor + 0) % b.capacity =
              (b.readCursor + (1 + j)) % b.capacity := by
            rw [hr0, ← Nat.add_assoc]
            exact hcontra
          have := offset_mod_inj (by omega) (by omega) hc2
          omega
        have hlt2 : j < ((b.readOpt b.count).drop 1).length := by
          rw [List.length_drop, RingBuffer.length_readOpt]; omega
        rw [List.getElem_append_left hlt2, List.getElem_drop, RingBuffer.getElem_readOpt]
        rw [List.getD_eq_getElem?_getD, List.getD_eq_getElem?_getD,
          List.getElem?_set_ne hne2]
        have harith : b.readCursor + (1 + j) = b.readCursor + 1 + j := by omega
        rw [harith]
      · have hjeq : j = b.capacity - 1 := by omega
        have hpos : (b.readCursor + 1 + j) % b.capacity = b.readCursor := by
          have harith : b.readCursor + 1 + j = b.readCursor + b.capacity := by omega
          rw [harith, Nat.add_mod_right, Nat.mod_eq_of_lt hr]
        rw [hpos, List.getD_eq_getElem?_getD, List.getElem?_set_self hrlt]
        have hlen2 : ((b.readOpt b.count).drop 1).length = b.capacity - 1 := by
          rw [List.length_drop, RingBuffer.length_readOpt]; omega
        rw [List.getElem_append_right (by omega)]
        simp [hlen2, hjeq]

theorem RingBuffer.pushAll_spec (fs : List SampleFrame) (b : RingBuffer) (hwf : b.WF)
    (hch : ∀ f ∈ fs, f.channels.length = b.channelCount) :
    (b.pushAll fs).WF ∧
    (b.pushAll fs).capacity = b.capacity ∧
    (b.pushAll fs).channelCount = b.channelCount ∧
    (b.pushAll fs).count = min (b.count + fs.length) b.capacity ∧
    (b.pushAll fs).dropped = b.dropped + (b.count + fs.length - b.capacity) ∧
    (b.pushAll fs).readOpt (b.pushAll fs).count =
      (b.readOpt b.count ++ fs.map some).drop (b.count + fs.length - b.capacity) := by
  induction fs generalizing b with
  | nil =>
    have hb : b.pushAll [] = b := rfl
    obtain ⟨hlen, hcap, hr, hw, hcnt⟩ := hwf
    rw [hb]
    refine ⟨⟨hlen, hcap, hr, hw, hcnt⟩, rfl, rfl, by simp; omega, by simp; omega, ?_⟩
    simp only [List.map_nil, List.append_nil, List.length_nil, Nat.add_zero]
    rw [Nat.sub_eq_zero_of_le hcnt, List.drop_zero]
  | cons f rest ih =>
    have hchf : f.channels.length = b.channelCount := hch f (List.mem_cons_self f rest)
    have hpa : b.pushAll (f :: rest) = ((b.push f).1).pushAll rest := rfl
    rcases Nat.lt_or_ge b.count b.capacity with hlt | hge
    · obtain ⟨hwf1, hcap1, hch1, hcnt1, hdr1, hq1⟩ := b.push_not_full f hwf hchf hlt
      have hchrest : ∀ g ∈ rest, g.channels.length = (b.push f).1.channelCount := by
        intro g hg
        rw [hch1]
        exact hch g (List.mem_cons_of_mem f hg)
      obtain ⟨ih1, ih2, ih3, ih4, ih5, ih6⟩ := ih (b.push f).1 hwf1 hchrest
      rw [hpa]
      refine ⟨ih1, by rw [ih2, hcap1], by rw [ih3, hch1], ?_, ?_, ?_⟩
      · rw [ih4, hcnt1, hcap1, List.length_cons]
        omega
      · rw [ih5, hdr1, hcnt1, hcap1, List.length_cons]
        omega
      · rw [ih6, hcnt1, hcap1, hq1]
        have harith : b.count + 1 + rest.length - b.capacity =
            b.count + (f :: rest).length - b.capacity := by
          rw [List.length_cons]; omega
        rw [harith, List.append_assoc, List.singleton_append, List.map_cons]
    · have heq : b.count = b.capacity := by
        obtain ⟨h1, h2, h3, h4, h5⟩ := hwf
        omega
      obtain ⟨hwf1, hcap1, hch1, hcnt1, hdr1, hq1⟩ := b.push_full f hwf hchf heq
      have hchrest : ∀ g ∈ rest, g.channels.length = (b.push f).1.channelCount := by
        intro g hg
        rw [hch1]
        exact hch g (List.mem_cons_of_mem f hg)
      obtain ⟨ih1, ih2, ih3, ih4, ih5, ih6⟩ := ih (b.push f).1 hwf1 hchrest
      have hcappos : 1 ≤ b.capacity := hwf.2.1
      rw [hpa]
      refine ⟨ih1, by rw [ih2, hcap1], by rw [ih3, hch1], ?_, ?_, ?_⟩
      · rw [ih4, hcnt1, hcap1, List.length_cons]
        omega
      · rw [ih5, hdr1, hcnt1, hcap1, List.length_cons]
        omega
      · rw [ih6, hcnt1, hcap1]
        have hidx1 : b.capacity + rest.length - b.capacity = rest.length := by omega
        have hidx2 : b.count + (f :: rest).length - b.capacity = rest.length + 1 := by
          rw [List.length_cons]; omega
        rw [hidx1, hidx2, hq1, List.map_cons]
        rw [List.append_assoc, List.singleton_append]
        have hqlen : 1 ≤ (b.readOpt b.count).length := by
          rw [RingBuffer.length_readOpt]; omega
        have h1n : rest.length + 1 = 1 + rest.length := by omega
        rw [h1n, ← List.drop_drop, List.drop_append_of_le_length hqlen]

theorem filterMap_id_map_some {α : Type} (l : List α) : (l.map some).filterMap id = l := by
  induction l with
  | nil => rfl
  | cons a t ih => simp [List.filterMap_cons, ih]

theorem RingBuffer.make_ok {cap ch : ℕ} {b0 : RingBuffer}
    (hmk : RingBuffer.make cap ch = .ok b0) :
    b0 = ⟨cap, ch, List.replicate cap none, 0, 0, 0, 0⟩ ∧ 1 ≤ cap := by
  by_cases h : cap < 1
  · simp [RingBuffer.make, h] at hmk
  · simp [RingBuffer.make, h] at hmk
    exact ⟨hmk.symm, by omega⟩

theorem RingBuffer.make_WF {cap ch : ℕ} {b0 : RingBuffer}
    (hmk : RingBuffer.make cap ch = .ok b0) :
    b0.WF ∧ b0.capacity = cap ∧ b0.channelCount = ch ∧ b0.count = 0 ∧ b0.dropped = 0 := by
  obtain ⟨hb, hcap⟩ := RingBuffer.make_ok hmk
  subst hb
  refine ⟨⟨?_, ?_, ?_, ?_, ?_⟩, rfl, rfl, rfl, rfl⟩
  · simp
  · exact hcap
  · show (0 : ℕ) < cap
    omega
  · simp
  · show (0 : ℕ) ≤ cap
    omega

theorem RingBuffer.pushAll_fresh {cap ch : ℕ} {b0 : RingBuffer} (fs : List SampleFrame)
    (hmk : RingBuffer.make cap ch = .ok b0)
    (hch : ∀ f ∈ fs, f.channels.length = ch) :
    (b0.pushAll fs).count = min fs.length cap ∧
    (b0.pushAll fs).dropped = fs.length - cap ∧
    (b0.pushAll fs).capacity = cap ∧
    (b0.pushAll fs).readOpt (b0.pushAll fs).count = (fs.drop (fs.length - cap)).map some := by
  obtain ⟨hwf, hcapEq, hchEq, hcnt0, hdr0⟩ := RingBuffer.make_WF hmk
  have hch2 : ∀ f ∈ fs, f.channels.length = b0.channelCount := by
    intro g hg
    rw [hchEq]
    exact hch g hg
  obtain ⟨h1, h2, h3, h4, h5, h6⟩ := RingBuffer.pushAll_spec fs b0 hwf hch2
  refine ⟨?_, ?_, ?_, ?_⟩
  · rw [h4, hcnt0, hcapEq]
    simp
  · rw [h5, hdr0, hcnt0, hcapEq]
    simp
  · rw [h2, hcapEq]
  · rw [h6, hcnt0, hcapEq]
    simp only [RingBuffer.readOpt, List.range_zero, List.map_nil, List.nil_append, Nat.zero_add]
    rw [← List.map_drop]

/-- C1: with N pushes of well-formed frames into a fresh buffer of
capacity C < N, exactly the last C frames are retrievable via `drain`,
`dropped_count()` equals N - C, and when the pushed frames carry
consecutive sequence numbers starting at s0, the sequence numbers of the
frames remaining in the buffer are contiguous and increasing. -/
theorem C1_overflow_keeps_last_C (cap ch s0 : ℕ) (b0 : RingBuffer) (fs : List SampleFrame)
    (hmk : RingBuffer.make cap ch = .ok b0)
    (hch : ∀ f ∈ fs, f.channels.length = ch)
    (hN : cap < fs.length)
    (hseq : ∀ i (h : i < fs.length), fs[i].seq = s0 + i) :
    ((b0.pushAll fs).drain 0).1 = fs.drop (fs.length - cap) ∧
    (b0.pushAll fs).dropped_count = fs.length - cap ∧
    List.map SampleFrame.seq ((b0.pushAll fs).drain 0).1 =
      (List.range cap).map (fun i => s0 + (fs.length - cap) + i) := by
  obtain ⟨hcnt, hdr, hcap, hq⟩ := RingBuffer.pushAll_fresh fs hmk hch
  have heff : (b0.pushAll fs).effCount 0 = (b0.pushAll fs).count := by
    simp [RingBuffer.effCount]
  have hdr1 : ((b0.pushAll fs).drain 0).1 = fs.drop (fs.length - cap) := by
    show ((b0.pushAll fs).readOpt ((b0.pushAll fs).effCount 0)).filterMap id = _
    rw [heff, hq]
    exact filterMap_id_map_some _
  refine ⟨hdr1, hdr, ?_⟩
  rw [hdr1]
  refine List.ext_getElem ?_ ?_
  · rw [List.length_map, List.length_drop, List.length_map, List.length_range]
    omega
  · intro i hi1 hi2
    rw [List.length_map, List.length_drop] at hi1
    simp only [List.getElem_map, List.getElem_drop, List.getElem_range]
    rw [hseq (fs.length - cap + i) (by omega)]
    omega

/-- Concrete instantiation of the overflow property: three 1-channel
frames with sequence numbers 0, 1, 2 pushed into a fresh capacity-2
buffer. -/
def wBuffer : RingBuffer := ⟨2, 1, List.replicate 2 none, 0, 0, 0, 0⟩

/-- Three well-formed 1-channel frames with consecutive sequence
numbers. -/
def wFrames : List SampleFrame := [⟨0, 0, [5]⟩, ⟨1, 1, [6]⟩, ⟨2, 2, [7]⟩]

/-- Concrete instantiation of the overflow property at capacity 2 with
three pushes. -/
theorem C1_witness :
    ((wBuffer.pushAll wFrames).drain 0).1 = wFrames.drop (wFrames.length - 2) ∧
    (wBuffer.pushAll wFrames).dropped_count = wFrames.length - 2 ∧
    List.map SampleFrame.seq ((wBuffer.pushAll wFrames).drain 0).1 =
      (List.range 2).map (fun i => 0 + (wFrames.length - 2) + i) :=
  C1_overflow_keeps_last_C 2 1 0 wBuffer wFrames rfl (by decide) (by decide) (by decide)

/-- C2: with N pushes of well-formed frames into a fresh buffer of
capacity at least N, `drain(N)` returns exactly those N frames in push
(FIFO) order with no loss and `dropped_count()` is 0. -/
theorem C2_fifo_no_loss (cap ch : ℕ) (b0 : RingBuffer) (fs : List SampleFrame)
    (hmk : RingBuffer.make cap ch = .ok b0)
    (hch : ∀ f ∈ fs, f.channels.length = ch)
    (hN : fs.length ≤ cap) :
    ((b0.pushAll fs).drain fs.length).1 = fs ∧
    (b0.pushAll fs).dropped_count = 0 := by
  obtain ⟨hcnt, hdr, hcap, hq⟩ := RingBuffer.pushAll_fresh fs hmk hch
  have hk : fs.length - cap = 0 := by omega
  have hcnt2 : (b0.pushAll fs).count = fs.length := by
    rw [hcnt]
    omega
  have heff : (b0.pushAll fs).effCount fs.length = (b0.pushAll fs).count := by
    by_cases h0 : fs.length = 0
    · simp [RingBuffer.effCount, h0]
    · simp [RingBuffer.effCount, h0, hcnt2]
  constructor
  · show ((b0.pushAll fs).readOpt ((b0.pushAll fs).effCount fs.length)).filterMap id = fs
    rw [heff, hq, hk, List.drop_zero]
    exact filterMap_id_map_some _
  · show (b0.pushAll fs).dropped = 0
    rw [hdr, hk]

/-- Two well-formed 1-channel frames, within a capacity-2 buffer. -/
def wFrames2 : List SampleFrame := [⟨0, 0, [5]⟩, ⟨1, 1, [6]⟩]

/-- Concrete instantiation of the FIFO no-loss property: two pushes into
a fresh capacity-2 buffer, drained with count 2. -/
theorem C2_witness :
    ((wBuffer.pushAll wFrames2).drain wFrames2.length).1 = wFrames2 ∧
    (wBuffer.pushAll wFrames2).dropped_count = 0 :=
  C2_fifo_no_loss 2 1 wBuffer wFrames2 rfl (by decide) (by decide)

/-- The fresh capacity-4, 2-channel buffer of the concrete scenario (§8). -/
def demoBuffer : RingBuffer := ⟨4, 2, List.replicate 4 none, 0, 0, 0, 0⟩

/-- The five frames of the concrete scenario (§8). -/
def demoFrames : List SampleFrame :=
  [⟨0, 0, [1, 2]⟩, ⟨1, 1, [3, 4]⟩, ⟨2, 2, [5, 6]⟩, ⟨3, 3, [7, 8]⟩, ⟨4, 4, [9, 10]⟩]

/-- C3: pushing the five scenario frames into a fresh capacity-4,
2-channel RingBuffer yields `dropped_count() = 1`; `drain(4)` returns
exactly the frames at t = 1, 2, 3, 4 in order, and afterwards
`unread_count()` is 0. -/
theorem C3_concrete_scenario :
    RingBuffer.make 4 2 = .ok demoBuffer ∧
    (demoBuffer.pushAll demoFrames).dropped_count = 1 ∧
    ((demoBuffer.pushAll demoFrames).drain 4).1 =
      [⟨1, 1, [3, 4]⟩, ⟨2, 2, [5, 6]⟩, ⟨3, 3, [7, 8]⟩, ⟨4, 4, [9, 10]⟩] ∧
    ((demoBuffer.pushAll demoFrames).drain 4).2.unread_count = 0 := by
  refine ⟨rfl, rfl, ?_, rfl⟩
  rfl

/-- C4: for every buffer state and every count, `peek` returns the same
frame list as a `drain` with the same count would, and `peek` leaves the
buffer state (hence `unread_count()`) unchanged. -/
theorem C4_peek_agrees_with_drain (b : RingBuffer) (n : ℕ) :
    (b.peek n).1 = (b.drain n).1 ∧ (b.peek n).2 = b :=
  ⟨rfl, rfl⟩

/-- C5: a frame whose channel count differs from the declared channel
count is rejected with `ChannelCountMismatch`: not stored (slots and
cursors unchanged), the drop counter increments by one and
`unread_count()` is unchanged; and construction with capacity < 1 fails
with `InvalidCapacity`. -/
theorem C5_mismatch_and_capacity (b : RingBuffer) (f : SampleFrame) (cap ch : ℕ)
    (hm : f.channels.length ≠ b.channelCount) (hc : cap < 1) :
    b.push f = ({ b with dropped := b.dropped + 1 }, some .channelCountMismatch) ∧
    (b.push f).1.slots = b.slots ∧
    (b.push f).1.unread_count = b.unread_count ∧
    (b.push f).1.dropped_count = b.dropped_count + 1 ∧
    RingBuffer.make cap ch = .error .invalidCapacity := by
  have hp : b.push f = ({ b with dropped := b.dropped + 1 }, some .channelCountMismatch) := by
    simp [RingBuffer.push, hm]
  refine ⟨hp, ?_, ?_, ?_, ?_⟩
  · rw [hp]
  · rw [hp]; rfl
  · rw [hp]; rfl
  · simp [RingBuffer.make, hc]

/-- Concrete instantiation of the channel-mismatch and invalid-capacity
properties: a 1-channel frame against the 2-channel demo buffer, and
construction with capacity 0. -/
theorem C5_witness :
    demoBuffer.push ⟨0, 0, [1]⟩ =
      ({ demoBuffer with dropped := demoBuffer.dropped + 1 }, some .channelCountMismatch) ∧
    (demoBuffer.push ⟨0, 0, [1]⟩).1.slots = demoBuffer.slots ∧
    (demoBuffer.push ⟨0, 0, [1]⟩).1.unread_count = demoBuffer.unread_count ∧
    (demoBuffer.push ⟨0, 0, [1]⟩).1.dropped_count = demoBuffer.dropped_count + 1 ∧
    RingBuffer.make 0 2 = .error .invalidCapacity :=
  C5_mismatch_and_capacity demoBuffer ⟨0, 0, [1]⟩ 0 2 (by decide) (by decide)

/-- Modelled from the spec: the `BoardSpec` returned by the external Board
handshake (§6): channel count and native sample rate. -/
structure BoardSpec where
  channels : ℕ
  sampleRate : ℕ
  deriving DecidableEq

/-- Modelled from the spec: the external Board collaborator (§6), as the
outcomes its three calls report in a given run. -/
structure Board where
  handshake : Except ErrorKind BoardSpec
  beginStreaming : Except ErrorKind Unit
  endStreaming : Except ErrorKind Unit

/-- Modelled from the spec: the session lifecycle states (§3). -/
inductive SessionState where
  | created
  | prepared
  | streaming
  | stopped
  | released
  deriving DecidableEq

/-- Modelled from the spec: `AcquisitionSession` (§3): state, channel
count, declared sample rate, declared capacity, and the owned RingBuffer
(allocated on `start`, discarded on `release`). -/
structure AcquisitionSession where
  deviceId : ℕ
  state : SessionState
  channelCount : ℕ
  sampleRate : ℕ
  capacity : ℕ
  buffer : Option RingBuffer
  deriving DecidableEq

/-- Modelled from the spec: `prepare()` (§4.2).  From `Created` it
validates device reachability via the Board handshake, recording the
returned channel count and sample rate; it fails with `PrepareFailed` if
the collaborator reports an error, remaining in `Created`.  Issued again
from `Prepared` it is a no-op success.  On a `Released` session every
operation fails with `SessionReleased`; the spec does not describe
`prepare` from `Streaming`/`Stopped`, modelled as `InvalidTransition`. -/
def AcquisitionSession.prepare (board : Board) (s : AcquisitionSession) :
    Except ErrorKind AcquisitionSession :=
  match s.state with
  | .released => .error .sessionReleased
  | .created =>
      match board.handshake with
      | .ok bs => .ok { s with state := .prepared,
                               channelCount := bs.channels,
                               sampleRate := bs.sampleRate }
      | .error _ => .error .prepareFailed
  | .prepared => .ok s
  | _ => .error .invalidTransition

/-- Modelled from the spec: `start()` (§4.2).  From `Prepared` it
allocates the RingBuffer at the declared capacity and channel count and
instructs the Board to begin producing; it fails with `AlreadyStreaming`
if called while `Streaming`, with `NotPrepared` from any other non
released state, and with `SessionReleased` on a released session.  Board
failures are surfaced verbatim (§7). -/
def AcquisitionSession.start (board : Board) (s : AcquisitionSession) :
    Except ErrorKind AcquisitionSession :=
  match s.state with
  | .released => .error .sessionReleased
  | .streaming => .error .alreadyStreaming
  | .prepared =>
      match board.beginStreaming with
      | .ok _ =>
          match RingBuffer.make s.capacity s.channelCount with
          | .ok rb => .ok { s with state := .streaming, buffer := some rb }
          | .error e => .error e
      | .error e => .error e
  | _ => .error .notPrepared

/-- Modelled from the spec: `stop()` (§4.2).  From `Streaming` it
instructs the Board to halt production and retains the RingBuffer;
calling from any other state fails with `InvalidTransition`
(`SessionReleased` on a released session). -/
def AcquisitionSession.stop (board : Board) (s : AcquisitionSession) :
    Except ErrorKind AcquisitionSession :=
  match s.state with
  | .released => .error .sessionReleased
  | .streaming =>
      match board.endStreaming with
      | .ok _ => .ok { s with state := .stopped }
      | .error e => .error e
  | _ => .error .invalidTransition

/-- Modelled from the spec: `release()` (§4.2).  Only valid from
`Stopped`; discards the RingBuffer; terminal.  Any operation on a
released session fails with `SessionReleased`. -/
def AcquisitionSession.release (s : AcquisitionSession) :
    Except ErrorKind AcquisitionSession :=
  match s.state with
  | .released => .error .sessionReleased
  | .stopped => .ok { s with state := .released, buffer := none }
  | _ => .error .invalidTransition

/-- Modelled from the spec: `get_data()`/`drain`-style read (§4.2): valid
in `Streaming` and `Stopped`, invalid in `Created`/`Prepared`
(`NotStreaming`) and in `Released` (`SessionReleased`). -/
def AcquisitionSession.get_data (s : AcquisitionSession) (maxN : ℕ) :
    Except ErrorKind (List SampleFrame × AcquisitionSession) :=
  match s.state with
  | .released => .error .sessionReleased
  | .created => .error .notStreaming
  | .prepared => .error .notStreaming
  | _ =>
      match s.buffer with
      | some rb => .ok ((rb.drain maxN).1, { s with buffer := some (rb.drain maxN).2 })
      | none => .ok ([], s)

/-- C6: on a session in the `Created` state only `prepare()` can succeed
(it succeeds exactly when the Board handshake does), while `start()`,
`stop()` and `get_data()` fail with `NotPrepared`, `InvalidTransition`
and `NotStreaming` respectively; and on a `Released` session every
operation fails with `SessionReleased`. -/
theorem C6_created_only_prepare_released_all_fail
    (sc sr : AcquisitionSession) (board : Board) (n : ℕ)
    (hc : sc.state = .created) (hr : sr.state = .released) :
    ((∃ bs, board.handshake = .ok bs) → ∃ s2, sc.prepare board = .ok s2) ∧
    sc.start board = .error .notPrepared ∧
    sc.stop board = .error .invalidTransition ∧
    sc.get_data n = .error .notStreaming ∧
    sr.prepare board = .error .sessionReleased ∧
    sr.start board = .error .sessionReleased ∧
    sr.stop board = .error .sessionReleased ∧
    sr.get_data n = .error .sessionReleased ∧
    sr.release = .error .sessionReleased := by
  refine ⟨?_, ?_, ?_, ?_, ?_, ?_, ?_, ?_, ?_⟩
  · rintro ⟨bs, hbs⟩
    refine ⟨{ sc with state := .prepared,
                      channelCount := bs.channels,
                      sampleRate := bs.sampleRate }, ?_⟩
    simp [AcquisitionSession.prepare, hc, hbs]
  · simp [AcquisitionSession.start, hc]
  · simp [AcquisitionSession.stop, hc]
  · simp [AcquisitionSession.get_data, hc]
  · simp [AcquisitionSession.prepare, hr]
  · simp [AcquisitionSession.start, hr]
  · simp [AcquisitionSession.stop, hr]
  · simp [AcquisitionSession.get_data, hr]
  · simp [AcquisitionSession.release, hr]

/-- A session freshly created for device 0. -/
def createdSession : AcquisitionSession := ⟨0, .created, 2, 100, 4, none⟩

/-- A released session for device 0. -/
def releasedSession : AcquisitionSession := ⟨0, .released, 2, 100, 4, none⟩

/-- A Board whose three calls all succeed, reporting 2 channels at
100 Hz. -/
def okBoard : Board := ⟨.ok ⟨2, 100⟩, .ok (), .ok ()⟩

/-- Concrete instantiation of the Created/Released state table on a fresh
session, a released session and an all-succeeding board. -/
theorem C6_witness :
    ((∃ bs, okBoard.handshake = .ok bs) → ∃ s2, createdSession.prepare okBoard = .ok s2) ∧
    createdSession.start okBoard = .error .notPrepared ∧
    createdSession.stop okBoard = .error .invalidTransition ∧
    createdSession.get_data 0 = .error .notStreaming ∧
    releasedSession.prepare okBoard = .error .sessionReleased ∧
    releasedSession.start okBoard = .error .sessionReleased ∧
    releasedSession.stop okBoard = .error .sessionReleased ∧
    releasedSession.get_data 0 = .error .sessionReleased ∧
    releasedSession.release = .error .sessionReleased :=
  C6_created_only_prepare_released_all_fail createdSession releasedSession okBoard 0 rfl rfl

/-- C8: `prepare()` issued on a session already in `Prepared` is a no-op
success returning the session unchanged, while `start()`, `stop()` and
`release()` are strict: repeated `start()` fails with `AlreadyStreaming`,
repeated `stop()` with `InvalidTransition`, repeated `release()` with
`SessionReleased`. -/
theorem C8_prepare_idempotent_others_strict (s : AcquisitionSession) (board : Board) :
    (s.state = .prepared → s.prepare board = .ok s) ∧
    (s.state = .streaming → s.start board = .error .alreadyStreaming) ∧
    (s.state = .stopped → s.stop board = .error .invalidTransition) ∧
    (s.state = .released → s.release = .error .sessionReleased) := by
  refine ⟨?_, ?_, ?_, ?_⟩
  · intro h
    simp [AcquisitionSession.prepare, h]
  · intro h
    simp [AcquisitionSession.start, h]
  · intro h
    simp [AcquisitionSession.stop, h]
  · intro h
    simp [AcquisitionSession.release, h]

/-- A session in the `Prepared` state. -/
def preparedSession : AcquisitionSession := ⟨0, .prepared, 2, 100, 4, none⟩

/-- A session in the `Streaming` state. -/
def streamingSession : AcquisitionSession := ⟨0, .streaming, 2, 100, 4, none⟩

/-- A session in the `Stopped` state. -/
def stoppedSession : AcquisitionSession := ⟨0, .stopped, 2, 100, 4, none⟩

/-- Concrete instantiation of idempotent `prepare` and strict
`start`/`stop`/`release` on sessions in each relevant state. -/
theorem C8_witness :
    preparedSession.prepare okBoard = .ok preparedSession ∧
    streamingSession.start okBoard = .error .alreadyStreaming ∧
    stoppedSession.stop okBoard = .error .invalidTransition ∧
    releasedSession.release = .error .sessionReleased :=
  ⟨(C8_prepare_idempotent_others_strict preparedSession okBoard).1 rfl,
   (C8_prepare_idempotent_others_strict streamingSession okBoard).2.1 rfl,
   (C8_prepare_idempotent_others_strict stoppedSession okBoard).2.2.1 rfl,
   (C8_prepare_idempotent_others_strict releasedSession okBoard).2.2.2 rfl⟩

/-- Modelled from the spec: the per-session configuration a caller passes
to `SessionRegistry.acquire` (§4.3): channel count, sample rate and
buffer capacity. -/
structure SessionConfig where
  channelCount : ℕ
  sampleRate : ℕ
  capacity : ℕ
  deriving DecidableEq

/-- Modelled from the spec: `SessionRegistry` (§3): a process-wide table
from device identifier to `AcquisitionSession`; entries are added on
acquire and removed on release, so every stored session is live. -/
structure SessionRegistry where
  sessions : List (ℕ × AcquisitionSession)
  deriving DecidableEq

/-- Modelled from the spec: `lookup(device_id)` (§4.3): returns the live
session or `NotFound`. -/
def SessionRegistry.lookup (reg : SessionRegistry) (did : ℕ) :
    Except ErrorKind AcquisitionSession :=
  match reg.sessions.find? (fun p => p.1 == did) with
  | some p => .ok p.2
  | none => .error .notFound

/-- Modelled from the spec: `acquire(device_id, config)` (§4.3): fails
with `DeviceBusy` if a live session for `device_id` already exists;
otherwise constructs a new session in `Created` state and registers
it. -/
def SessionRegistry.acquire (reg : SessionRegistry) (did : ℕ) (cfg : SessionConfig) :
    Except ErrorKind (AcquisitionSession × SessionRegistry) :=
  match reg.sessions.find? (fun p => p.1 == did) with
  | some _ => .error .deviceBusy
  | none =>
      .ok (⟨did, .created, cfg.channelCount, cfg.sampleRate, cfg.capacity, none⟩,
           ⟨(did, ⟨did, .created, cfg.channelCount, cfg.sampleRate, cfg.capacity, none⟩)
             :: reg.sessions⟩)

/-- Modelled from the spec: `remove` (§4.3), called internally by a
released session; absent-entry removal is a no-op (defensive).  The spec
keys removal by session id; sessions are identified here by the device
id they were registered under. -/
def SessionRegistry.remove (reg : SessionRegistry) (did : ℕ) : SessionRegistry :=
  ⟨reg.sessions.filter (fun p => p.1 != did)⟩

/-- Modelled from the spec: a released session deregisters from the
registry (§4.2 release): perform `release()` on the registered session
and remove its entry, surfacing any release error. -/
def SessionRegistry.releaseSession (reg : SessionRegistry) (did : ℕ) :
    Except ErrorKind SessionRegistry :=
  match reg.sessions.find? (fun p => p.1 == did) with
  | none => .error .notFound
  | some p =>
      match p.2.release with
      | .ok _ => .ok (reg.remove did)
      | .error e => .error e

/-- C7: at most one live session per device id: `acquire` fails with
`DeviceBusy` whenever a registered (hence live) session for the device id
exists, and once that session has been released (removing its entry), a
subsequent `acquire` for the same device id succeeds. -/
theorem C7_single_live_session_per_device (reg reg2 : SessionRegistry) (did : ℕ)
    (cfg : SessionConfig) :
    ((∃ s, reg.lookup did = .ok s) → reg.acquire did cfg = .error .deviceBusy) ∧
    (reg.releaseSession did = .ok reg2 →
      ∃ s2 reg3, reg2.acquire did cfg = .ok (s2, reg3)) := by
  constructor
  · rintro ⟨s, hs⟩
    cases hfind : reg.sessions.find? (fun p => p.1 == did) with
    | none => simp [SessionRegistry.lookup, hfind] at hs
    | some p => simp [SessionRegistry.acquire, hfind]
  · intro hrel
    cases hfind : reg.sessions.find? (fun p => p.1 == did) with
    | none => simp [SessionRegistry.releaseSession, hfind] at hrel
    | some p =>
      cases hrelres : p.2.release with
      | error e => simp [SessionRegistry.releaseSession, hfind, hrelres] at hrel
      | ok s2 =>
        have hreg2 : reg2 = reg.remove did := by
          simp [SessionRegistry.releaseSession, hfind, hrelres] at hrel
          exact hrel.symm
        have hnone : reg2.sessions.find? (fun p => p.1 == did) = none := by
          rw [hreg2]
          rw [List.find?_eq_none]
          intro x hx
          have hmem := List.mem_filter.mp hx
          have hne := hmem.2
          simp only [bne_iff_ne] at hne
          simp [hne]
        refine ⟨⟨did, .created, cfg.channelCount, cfg.sampleRate, cfg.capacity, none⟩,
          ⟨(did, ⟨did, .created, cfg.channelCount, cfg.sampleRate, cfg.capacity, none⟩)
            :: reg2.sessions⟩, ?_⟩
        simp [SessionRegistry.acquire, hnone]

/-- A registry holding one stopped (hence live) session for device 0. -/
def busyRegistry : SessionRegistry := ⟨[(0, stoppedSession)]⟩

/-- The registry after device 0 has been released. -/
def freedRegistry : SessionRegistry := ⟨[]⟩

/-- A 2-channel, 100 Hz, capacity-4 configuration. -/
def demoConfig : SessionConfig := ⟨2, 100, 4⟩

/-- Concrete instantiation of the registry exclusivity property: a second
acquire for a busy device 0 fails, and after releasing that session an
acquire for device 0 succeeds. -/
theorem C7_witness :
    busyRegistry.acquire 0 demoConfig = .error .deviceBusy ∧
    (∃ s2 reg3, freedRegistry.acquire 0 demoConfig = .ok (s2, reg3)) := by
  have h := C7_single_live_session_per_device busyRegistry freedRegistry 0 demoConfig
  exact ⟨h.1 ⟨stoppedSession, rfl⟩, h.2 rfl⟩

/-- The five BrainFlow board calls the tutorial script
src/examples/01_hello_brainflow.py issues. -/
inductive BoardCall where
  | prepare_session
  | start_stream
  | get_board_data
  | stop_stream
  | release_session
  deriving DecidableEq

/-- One statement of the script: either a board call or other work
(print, input, sleep, numpy arithmetic), any of which may raise. -/
inductive ScriptStep where
  | board (c : BoardCall)
  | io
  deriving DecidableEq

/-- The statements of the try block (lines 57-100 of the script), in
order: `prepare_session`, a print, `start_stream`, prints and an input,
the countdown loop, `get_board_data`, and the remaining prints, inputs
and numpy computations of steps 5-7. -/
def tryBlockSteps : List ScriptStep :=
  [.board .prepare_session, .io, .board .start_stream, .io, .io, .io] ++
  List.replicate 10 .io ++
  [.board .get_board_data] ++
  List.replicate 23 .io

/-- The statements of the finally block (lines 102-108): a print,
`stop_stream`, `release_session`, and two prints. -/
def finallySteps : List ScriptStep :=
  [.io, .board .stop_stream, .board .release_session, .io, .io]

/-- Run a straight-line statement list: `raises i` says whether the i-th
statement raises.  Returns the board calls invoked (a raising call is
still invoked) and whether an exception escaped. -/
def runSteps (raises : ℕ → Bool) : List ScriptStep → ℕ → List BoardCall × Bool
  | [], _ => ([], false)
  | .board c :: rest, i =>
      if raises i then ([c], true)
      else (c :: (runSteps raises rest (i + 1)).1, (runSteps raises rest (i + 1)).2)
  | .io :: rest, i =>
      if raises i then ([], true)
      else runSteps raises rest (i + 1)

/-- The board calls the script invokes once `prepare_session` at the top
of the try block has been entered: Python runs the try-block statements
until one raises, then always runs the finally block, whose statements
run until one of them raises. -/
def scriptBoardTrace (raisesTry raisesFin : ℕ → Bool) : List BoardCall :=
  (runSteps raisesTry tryBlockSteps 0).1 ++ (runSteps raisesFin finallySteps 0).1

theorem runSteps_mem (raises : ℕ → Bool) (c : BoardCall) :
    ∀ (steps : List ScriptStep) (i : ℕ),
      c ∈ (runSteps raises steps i).1 → ScriptStep.board c ∈ steps := by
  intro steps
  induction steps with
  | nil =>
    intro i hc
    simp [runSteps] at hc
  | cons s rest ih =>
    intro i hc
    cases s with
    | board c2 =>
      by_cases h : raises i
      · simp [runSteps, h] at hc
        rw [hc]
        exact List.mem_cons_self _ _
      · simp [runSteps, h] at hc
        rcases hc with hc | hc
        · rw [hc]
          exact List.mem_cons_self _ _
        · exact List.mem_cons_of_mem _ (ih (i + 1) hc)
    | io =>
      by_cases h : raises i
      · simp [runSteps, h] at hc
      · simp [runSteps, h] at hc
        exact List.mem_cons_of_mem _ (ih (i + 1) hc)

/-- A run in which `prepare_session` (statement 0 of the try block)
raises. -/
def cexTryRaises (i : ℕ) : Bool := i == 0

/-- A run in which `stop_stream` (statement 1 of the finally block)
raises, as it does on a board whose session was never prepared. -/
def cexFinRaises (i : ℕ) : Bool := i == 1

/-- C9 counterexample: when `prepare_session` raises and the
`stop_stream` call in the finally block itself raises, `release_session`
is never invoked, so it is not the case that both cleanup calls are
always invoked exactly once. -/
theorem C9_counterexample :
    scriptBoardTrace cexTryRaises cexFinRaises =
      [.prepare_session, .stop_stream] ∧
    (scriptBoardTrace cexTryRaises cexFinRaises).count .release_session = 0 ∧
    (scriptBoardTrace cexTryRaises cexFinRaises).count .stop_stream = 1 := by
  refine ⟨by decide, by decide, by decide⟩

/-- C9 (amended): however the try block terminates — normally or with any
statement raising, including `prepare_session` itself — the finally block
runs, and provided no finally-block statement raises, `stop_stream` and
`release_session` are each invoked exactly once, in that order, as the
final two board calls. -/
theorem C9_finally_invokes_cleanup (raisesTry raisesFin : ℕ → Bool)
    (hfin : ∀ i, raisesFin i = false) :
    ∃ l, scriptBoardTrace raisesTry raisesFin =
        l ++ [.stop_stream, .release_session] ∧
      BoardCall.stop_stream ∉ l ∧ BoardCall.release_session ∉ l ∧
      (scriptBoardTrace raisesTry raisesFin).count .stop_stream = 1 ∧
      (scriptBoardTrace raisesTry raisesFin).count .release_session = 1 := by
  have hfinrun : (runSteps raisesFin finallySteps 0).1 =
      [.stop_stream, .release_session] := by
    simp [runSteps, finallySteps, hfin]
  have htr : scriptBoardTrace raisesTry raisesFin =
      (runSteps raisesTry tryBlockSteps 0).1 ++ [.stop_stream, .release_session] := by
    rw [scriptBoardTrace, hfinrun]
  have hstop : BoardCall.stop_stream ∉ (runSteps raisesTry tryBlockSteps 0).1 := by
    intro hmem
    have hin := runSteps_mem raisesTry .stop_stream tryBlockSteps 0 hmem
    revert hin
    decide
  have hrel : BoardCall.release_session ∉ (runSteps raisesTry tryBlockSteps 0).1 := by
    intro hmem
    have hin := runSteps_mem raisesTry .release_session tryBlockSteps 0 hmem
    revert hin
    decide
  refine ⟨(runSteps raisesTry tryBlockSteps 0).1, htr, hstop, hrel, ?_, ?_⟩
  · rw [htr, List.count_append, List.count_eq_zero.mpr hstop]
    decide
  · rw [htr, List.count_append, List.count_eq_zero.mpr hrel]
    decide

/-- A run with no exceptions at all. -/
def noRaise : ℕ → Bool := fun _ => false

/-- Concrete instantiation of the cleanup guarantee in the
exception-free run. -/
theorem C9_witness :
    ∃ l, scriptBoardTrace noRaise noRaise =
        l ++ [.stop_stream, .release_session] ∧
      BoardCall.stop_stream ∉ l ∧ BoardCall.release_session ∉ l ∧
      (scriptBoardTrace noRaise noRaise).count .stop_stream = 1 ∧
      (scriptBoardTrace noRaise noRaise).count .release_session = 1 :=
  C9_finally_invokes_cleanup noRaise noRaise (fun _ => rfl)

/-- A 3-vector with exact rational coordinates, standing for the numpy
vectors the Manim script manipulates (z is always 0 there). -/
structure Vec3 where
  x : ℚ
  y : ℚ
  z : ℚ
  deriving DecidableEq

instance : Add Vec3 := ⟨fun a b => ⟨a.x + b.x, a.y + b.y, a.z + b.z⟩⟩

instance : HMul Vec3 ℚ Vec3 := ⟨fun v c => ⟨v.x * c, v.y * c, v.z * c⟩⟩

/-- The manim direction constant UP. -/
def UP : Vec3 := ⟨0, 1, 0⟩

/-- The manim direction constant DOWN. -/
def DOWN : Vec3 := ⟨0, -1, 0⟩

/-- The manim direction constant LEFT. -/
def LEFT : Vec3 := ⟨-1, 0, 0⟩

/-- The manim direction constant RIGHT. -/
def RIGHT : Vec3 := ⟨1, 0, 0⟩

/-- The manim origin constant. -/
def ORIGIN : Vec3 := ⟨0, 0, 0⟩

/-- The manim colors used by the neuron constructors. -/
inductive MColor where
  | blue
  deriving DecidableEq

/-- The mobjects built by the neuron constructors of
src/animations/dipole_model.py: circles and lines with their style
parameters, grouping, and the rotate/move_to transforms applied at the
end of `create_detailed_neuron`. -/
inductive Mobject where
  | circle (radius : ℚ) (color : MColor) (fillOpacity : ℚ) (strokeWidth : ℚ)
  | line (p q : Vec3) (color : MColor) (strokeWidth : ℚ)
  | group (parts : List Mobject)
  | rotated (angle : ℚ) (m : Mobject)
  | movedTo (target : Vec3) (m : Mobject)

/-- Manim `get_end` of a line mobject (only ever called on lines in the
neuron constructors). -/
def Mobject.get_end : Mobject → Vec3
  | .line _ q _ _ => q
  | _ => ORIGIN

namespace ParallelNeuronsStatic

/-- Embedding of `ParallelNeuronsStatic.create_detailed_neuron`
(src/animations/dipole_model.py lines 579-650): soma, apical dendrite
trunk, two main branches with two secondary branches each, two basal
dendrites and an axon, grouped; rotated when `rotation != 0`; moved to
`center`. -/
def create_detailed_neuron (center : Vec3) (scale : ℚ) (rotation : ℚ) : Mobject :=
  let soma := Mobject.circle (0.18 * scale) .blue 0.4 3
  let dendrite_trunk := Mobject.line ORIGIN (UP * (1.8 : ℚ) * scale) .blue 4
  let dendrite_top := dendrite_trunk.get_end
  let branch1 :=
    Mobject.line dendrite_top
      (dendrite_top + (UP * (0.5 : ℚ) + LEFT * (0.35 : ℚ)) * scale) .blue 3
  let branch2 :=
    Mobject.line dendrite_top
      (dendrite_top + (UP * (0.5 : ℚ) + RIGHT * (0.35 : ℚ)) * scale) .blue 3
  let branch1_end := branch1.get_end
  let branch1a :=
    Mobject.line branch1_end
      (branch1_end + (UP * (0.25 : ℚ) + LEFT * (0.15 : ℚ)) * scale) .blue 2
  let branch1b :=
    Mobject.line branch1_end
      (branch1_end + (UP * (0.3 : ℚ) + RIGHT * (0.1 : ℚ)) * scale) .blue 2
  let branch2_end := branch2.get_end
  let branch2a :=
    Mobject.line branch2_end
      (branch2_end + (UP * (0.25 : ℚ) + RIGHT * (0.15 : ℚ)) * scale) .blue 2
  let branch2b :=
    Mobject.line branch2_end
      (branch2_end + (UP * (0.3 : ℚ) + LEFT * (0.1 : ℚ)) * scale) .blue 2
  let basal1 :=
    Mobject.line ORIGIN ((DOWN * (0.15 : ℚ) + LEFT * (0.25 : ℚ)) * scale) .blue 2
  let basal2 :=
    Mobject.line ORIGIN ((DOWN * (0.15 : ℚ) + RIGHT * (0.25 : ℚ)) * scale) .blue 2
  let axon := Mobject.line ORIGIN (DOWN * (0.7 : ℚ) * scale) .blue 3
  let neuron := Mobject.group
    [soma, dendrite_trunk, branch1, branch2, branch1a, branch1b, branch2a, branch2b,
     basal1, basal2, axon]
  let neuron := if rotation ≠ 0 then Mobject.rotated rotation neuron else neuron
  Mobject.movedTo center neuron

/-- Embedding of `ParallelNeuronsStatic.create_simple_neuron`
(src/animations/dipole_model.py lines 652-654): it simply returns
`create_detailed_neuron` on the same arguments. -/
def create_simple_neuron (center : Vec3) (scale : ℚ) (rotation : ℚ) : Mobject :=
  create_detailed_neuron center scale rotation

end ParallelNeuronsStatic

/-- C10: for every center, scale and rotation argument,
`create_simple_neuron` returns exactly the result of
`create_detailed_neuron` on the same arguments: the two constructors are
extensionally equal. -/
theorem C10_simple_neuron_equals_detailed (center : Vec3) (scale rotation : ℚ) :
    ParallelNeuronsStatic.create_simple_neuron center scale rotation =
      ParallelNeuronsStatic.create_detailed_neuron center scale rotation :=
  rfl

end EEGAlpha
